import Mathlib

/-!
Verification development for the teach-me-mailer quota gateway.

The definitions below are a shallow embedding of the core of the repository:

* app/services/atomic_rate_limit.py — AtomicRateLimitService
  (check_and_increment_rate_limit, _get_effective_daily_limit,
  _calculate_retry_after_seconds, _get_next_midnight_utc);
* app/api/v1/mail.py — the send_mail request handler;
* app/api/v1/usage.py — the get_usage peek handler;
* app/services/email_queue.py — EmailQueueService
  (create_send_log, send_email_background, update_send_log_message_id);
* app/db/session.py — get_async_session, which commits the request session on
  normal completion and rolls it back when an exception escapes the handler.

Counts are modelled as Nat (Python ints, non-negative by the data model);
the per-key daily_limit column is Option Int (nullable integer); wall-clock
time is modelled as microseconds since some UTC midnight (Python datetime
carries microsecond precision and all arithmetic in the source stays within
one day of a midnight boundary).  The database state relevant to one
(api_key, day) pair is the optional counter row (Option Nat) plus the number
of send_logs rows for the key.  Database anomalies (the unique-constraint
insert race and unexpected internal errors) are injected through an explicit
Anomaly parameter, mirroring the except-branches of the source.
-/

namespace MailGateway

/-- Result of a rate limit check — atomic_rate_limit.RateLimitResult. -/
structure RateLimitResult where
  allowed : Bool
  current_count : Nat
  retry_after_seconds : Option Nat
deriving Repr, DecidableEq

/-- Microseconds per second (Python datetime resolution). -/
def usPerSecond : Nat := 1000000

/-- Microseconds per day. -/
def usPerDay : Nat := 86400 * usPerSecond

/-- AtomicRateLimitService._get_next_midnight_utc: midnight starting the next
UTC day, as microseconds.  (now_utc + 1 day).date() truncates to the day
boundary, so the result is the next multiple of usPerDay. -/
def next_midnight_us (now_us : Nat) : Nat :=
  (now_us / usPerDay + 1) * usPerDay

/-- AtomicRateLimitService._calculate_retry_after_seconds:
int((next_midnight - now_utc).total_seconds()).  The timedelta holds an exact
whole number of microseconds and int() truncates the (positive) quotient, so
this is floor division of the microsecond gap by 10^6. -/
def calculate_retry_after_seconds (now_us : Nat) : Nat :=
  (next_midnight_us now_us - now_us) / usPerSecond

/-- Modelled from the spec wording only (for comparison with the code): the
spec says retryAfterSeconds is always the CEILING of the seconds from now
until the next UTC midnight. -/
def spec_retry_after_ceil (now_us : Nat) : Nat :=
  (next_midnight_us now_us - now_us + (usPerSecond - 1)) / usPerSecond

/-- AtomicRateLimitService._get_effective_daily_limit: a missing (None) or
non-positive stored daily_limit falls back to settings.default_daily_limit;
a strictly positive stored value is used as-is. -/
def get_effective_daily_limit (daily_limit : Option Int) (default_daily_limit : Nat) : Nat :=
  match daily_limit with
  | none => default_daily_limit
  | some d => if d ≤ 0 then default_daily_limit else d.toNat

/-- Environment behaviour during one check_and_increment_rate_limit call.
ok: no anomaly.  insertRace r: the INSERT of the missing counter row hits the
uniqueness constraint because a concurrent transaction committed the row with
count r (IntegrityError branch).  insertRaceRowMissing: IntegrityError, but
the single retry SELECT finds no row (the ValueError branch).
insertRaceThenUnexpected: IntegrityError, and the retry itself fails with an
unexpected error.  unexpected: an unexpected error anywhere in the check
(outer except-Exception branch). -/
inductive Anomaly where
  | ok : Anomaly
  | insertRace (racerCount : Nat) : Anomaly
  | insertRaceRowMissing : Anomaly
  | insertRaceThenUnexpected : Anomaly
  | unexpected : Anomaly
deriving Repr, DecidableEq

/-- Outcome of one check_and_increment_rate_limit call.  dbCounter is the
committed counter row after environment effects (a racing transaction may
have committed the row); sessionCounter is this request session's pending
view of the row (flushed but not committed — the caller's session finalizer
decides whether it becomes durable). -/
structure CheckOutcome where
  result : RateLimitResult
  dbCounter : Option Nat
  sessionCounter : Option Nat
deriving Repr, DecidableEq

/-- AtomicRateLimitService.check_and_increment_rate_limit for one
(api_key_id, today) pair.  effective_limit is the already-resolved limit,
db the committed counter row, email_count the requested increment.
The SELECT ... FOR UPDATE read-modify-write is atomic with respect to other
sessions (row lock); within the session the count is mutated before the
over-limit comparison, and the internal _RateLimitExceeded exception is
caught and turned into an allowed=false result without committing. -/
def check_and_increment_rate_limit (effective_limit : Nat) (db : Option Nat)
    (email_count : Nat) (now_us : Nat) (anom : Anomaly) : CheckOutcome :=
  match db, anom with
  | _, .unexpected =>
      -- outer except Exception: deny for safety, current_count hardcoded 0
      ⟨⟨false, 0, some (calculate_retry_after_seconds now_us)⟩, db, db⟩
  | some c, _ =>
      -- row exists: FOR UPDATE finds it, no INSERT so no IntegrityError
      let newCount := c + email_count
      if newCount > effective_limit then
        ⟨⟨false, c, some (calculate_retry_after_seconds now_us)⟩, some c, some newCount⟩
      else
        ⟨⟨true, newCount, none⟩, some c, some newCount⟩
  | none, .ok =>
      -- row absent: created with count = email_count, old_count = 0
      let newCount := email_count
      if newCount > effective_limit then
        ⟨⟨false, 0, some (calculate_retry_after_seconds now_us)⟩, none, some newCount⟩
      else
        ⟨⟨true, newCount, none⟩, none, some newCount⟩
  | none, .insertRace r =>
      -- IntegrityError on flush; session rollback; retry SELECT FOR UPDATE
      -- finds the racer's committed row and applies the increment to it
      let newCount := r + email_count
      if newCount > effective_limit then
        ⟨⟨false, r, some (calculate_retry_after_seconds now_us)⟩, some r, some newCount⟩
      else
        ⟨⟨true, newCount, none⟩, some r, some newCount⟩
  | none, .insertRaceRowMissing =>
      -- retry SELECT finds no row: ValueError, caught by the outer handler
      ⟨⟨false, 0, some (calculate_retry_after_seconds now_us)⟩, none, none⟩
  | none, .insertRaceThenUnexpected =>
      -- the single permitted retry itself fails: outer handler denies
      ⟨⟨false, 0, some (calculate_retry_after_seconds now_us)⟩, none, none⟩

/-- One request-scoped run of check_and_increment_rate_limit, anomaly-free,
together with the get_async_session finalization its callers perform: the
session is committed when the handler completes normally (the allowed path
of mail.py) and rolled back when the denial escapes as an HTTPException
(the denied path of mail.py), so an allowed call persists the session view
and a denied call leaves the committed row untouched. -/
def check_and_increment_committed (effective_limit : Nat) (db : Option Nat)
    (email_count : Nat) (now_us : Nat) : RateLimitResult × Option Nat :=
  let chk := check_and_increment_rate_limit effective_limit db email_count now_us .ok
  if chk.result.allowed then (chk.result, chk.sessionCounter) else (chk.result, chk.dbCounter)

/-- The slice of an api_keys row that the handlers read: the nullable
daily_limit column and the nullable allowed_recipients JSON list. -/
structure APIKeyRecord where
  daily_limit : Option Int
  allowed_recipients : Option (List String)
deriving Repr, DecidableEq

/-- mail.py: allowed = [r.strip().lower() for r in api_key.allowed_recipients if r]. -/
def normalized_allowed (rs : List String) : List String :=
  (rs.filter (fun r => r ≠ "")).map (fun r => r.trim.toLower)

/-- mail.py recipient allowlist check: skipped when allowed_recipients is
null or empty (falsy), otherwise membership of the stripped lowercased
recipient in the stripped lowercased list. -/
def recipient_allowed (key : APIKeyRecord) (recipient : String) : Bool :=
  match key.allowed_recipients with
  | none => true
  | some rs =>
      if rs.isEmpty then true
      else (normalized_allowed rs).contains (recipient.trim.toLower)

/-- Committed database state relevant to one api_key on one day: the
daily_usage counter row and the number of send_logs rows for the key. -/
structure GatewayDb where
  counter : Option Nat
  sendLogs : Nat
deriving Repr, DecidableEq

/-- Durability-relevant events of one send_mail request, in program order.
rateCheckPassed: check_and_increment_rate_limit returned allowed.
sendLogFlushed: create_send_log added the SendLog row to the session and
flushed it (not durable yet).  txCommitted: the single db.commit() in
send_mail, which makes the counter increment and the SendLog row durable
together. -/
inductive MailEv where
  | rateCheckPassed : MailEv
  | sendLogFlushed : MailEv
  | txCommitted : MailEv
deriving Repr, DecidableEq, BEq

/-- Index of the first occurrence of an event in a request trace. -/
def first_index (evs : List MailEv) (ev : MailEv) : Option Nat :=
  evs.findIdx? (fun e => e == ev)

/-- Response of the send_mail handler: 403 recipient-not-allowed, 429 with
Retry-After, or 202 queued with the remaining count (an int that the code
computes as effective_limit - (current_count + email_count)). -/
inductive SendOutcome where
  | forbidden : SendOutcome
  | rateLimited (currentCount : Nat) (retryAfterSeconds : Nat) : SendOutcome
  | queued (remaining : Int) : SendOutcome
deriving Repr, DecidableEq

/-- Result of one send_mail request: the HTTP-level outcome, the committed
database state afterwards, and the durability event trace. -/
structure SendMailRun where
  outcome : SendOutcome
  db : GatewayDb
  events : List MailEv
deriving Repr, DecidableEq

/-- mail.py send_mail, combined with get_async_session finalization.
Step 0: allowlist check (no ledger or audit interaction on rejection).
Step 1: check_and_increment_rate_limit with email_count = 1; a denial is
surfaced as HTTPException 429, which makes get_async_session roll the
session back, so only environment effects (a racer's committed row) remain.
Step 2: create_send_log (flush) then db.commit() — the increment and the
SendLog row become durable in this one commit.
Step 4: respond queued with
remaining = effective_limit - (current_count + email_count), where mail.py
resolves effective_limit as daily_limit if not None else default (without
the limiter's non-positive guard). -/
def send_mail (default_daily_limit : Nat) (key : APIKeyRecord) (recipient : String)
    (db : GatewayDb) (now_us : Nat) (anom : Anomaly) : SendMailRun :=
  if ¬ recipient_allowed key recipient then
    ⟨.forbidden, db, []⟩
  else
    let email_count : Nat := 1
    let eff := get_effective_daily_limit key.daily_limit default_daily_limit
    let chk := check_and_increment_rate_limit eff db.counter email_count now_us anom
    if chk.result.allowed then
      let committed : GatewayDb := ⟨chk.sessionCounter, db.sendLogs + 1⟩
      let effective_limit : Int :=
        match key.daily_limit with
        | none => (default_daily_limit : Int)
        | some d => d
      let remaining : Int :=
        effective_limit - ((chk.result.current_count : Int) + (email_count : Int))
      ⟨.queued remaining, committed, [.rateCheckPassed, .sendLogFlushed, .txCommitted]⟩
    else
      ⟨.rateLimited chk.result.current_count (chk.result.retry_after_seconds.getD 0),
        ⟨chk.dbCounter, db.sendLogs⟩, []⟩

/-- usage.py get_usage: a peek call — check_and_increment_rate_limit with
email_count = 0.  The handler returns normally whatever the result, so
get_async_session commits the session afterwards. -/
def get_usage (default_daily_limit : Nat) (key : APIKeyRecord)
    (db : GatewayDb) (now_us : Nat) : RateLimitResult × GatewayDb :=
  let eff := get_effective_daily_limit key.daily_limit default_daily_limit
  let chk := check_and_increment_rate_limit eff db.counter 0 now_us .ok
  (chk.result, ⟨chk.sessionCounter, db.sendLogs⟩)

/-- n sequential peeks (get_usage calls), each running on the database state
the previous one left behind. -/
def peek_n (default_daily_limit : Nat) (key : APIKeyRecord) (now_us : Nat) :
    Nat → GatewayDb → GatewayDb
  | 0, db => db
  | n + 1, db => peek_n default_daily_limit key now_us n (get_usage default_daily_limit key db now_us).2

/-- Outcome of the asynchronous delivery attempt, as seen by
send_email_background: the mailer returned a message id; the mailer caught
the SMTP failure internally and returned None; or the call raised before
returning (for example the domain-allowlist ValueError). -/
inductive DeliveryOutcome where
  | success (message_id : String) : DeliveryOutcome
  | returnedNone : DeliveryOutcome
  | raised : DeliveryOutcome
deriving Repr, DecidableEq

/-- The sequence of update_send_log_message_id calls that one
send_email_background run issues for its SendLog row.  The try-branch calls
it once with the mailer's return value; the except-branch calls it once with
None.  update_send_log_message_id swallows its own exceptions, so the
try-branch call cannot itself trigger the except-branch: exactly one call is
issued per run. -/
def background_update_calls (outcome : DeliveryOutcome) : List (Option String) :=
  match outcome with
  | .success mid => [some mid]
  | .returnedNone => [none]
  | .raised => [none]

/-- The SendLog row as the background handler sees it: the nullable
message_id column and the number of UPDATE statements applied to the row. -/
structure SendLogRow where
  message_id : Option String
  updates : Nat
deriving Repr, DecidableEq

/-- update_send_log_message_id: one UPDATE of the row's message_id column,
executed in its own freshly opened session (AsyncSessionLocal) and committed
there, independent of the request session. -/
def update_send_log_message_id (row : SendLogRow) (mid : Option String) : SendLogRow :=
  ⟨mid, row.updates + 1⟩

/-- State touched by the background delivery path: the SendLog row it
updates and the daily_usage counter, which it never reads or writes. -/
structure BackgroundState where
  row : SendLogRow
  counter : Option Nat
deriving Repr, DecidableEq

/-- EmailQueueService.send_email_background: attempt delivery, then apply
the resulting update calls to the SendLog row; the quota counter is not
touched on any path. -/
def send_email_background (outcome : DeliveryOutcome) (st : BackgroundState) : BackgroundState :=
  ⟨(background_update_calls outcome).foldl update_send_log_message_id st.row, st.counter⟩

/-!
Concurrency model for the serialization invariant.  The critical section of
check_and_increment_rate_limit — the SELECT ... FOR UPDATE read, the
in-session increment, and the over-limit decision — runs under the
daily_usage row lock, which the storage layer holds until the surrounding
transaction commits (allowed) or rolls back (denied).  We embed that as a
transition system: any number of calls against the same (key, day) counter,
where a call may enter the critical section only while no other call holds
the lock, reads the committed counter on entry, and on exit either commits
counter = old + req (when old + req is within the limit) or rolls back
leaving the counter untouched.  Every interleaving of the Python coroutines
is a path of this system, because the lock is the only shared state and all
other steps of a call are local. -/

/-- Phase of one in-flight check_and_increment call: not yet entered the
critical section; inside it, holding the row lock and having read oldCount;
or finished with its allowed verdict. -/
inductive CallPhase where
  | ready : CallPhase
  | inCrit (oldCount : Nat) : CallPhase
  | finished (allowed : Bool) : CallPhase
deriving Repr, DecidableEq

/-- Global state: the in-flight calls (requested count and phase), the
committed counter, and whether some call holds the row lock. -/
structure ConcState where
  calls : List (Nat × CallPhase)
  counter : Nat
  lockHeld : Bool
deriving Repr, DecidableEq

/-- Whether a phase is inside the critical section. -/
def isCrit : CallPhase → Bool
  | .inCrit _ => true
  | _ => false

/-- Number of calls inside the critical section. -/
def critCount (l : List (Nat × CallPhase)) : Nat :=
  l.countP (fun p => isCrit p.2)

/-- Contribution of one call to the total granted by the limiter. -/
def allowedContrib : Nat × CallPhase → Nat
  | (r, .finished true) => r
  | _ => 0

/-- Sum of the requested counts of the calls that finished allowed. -/
def allowedSum (l : List (Nat × CallPhase)) : Nat :=
  (l.map allowedContrib).sum

/-- Interleaving semantics of concurrent check_and_increment calls for one
(key, day) counter under effective limit L: a ready call may acquire the
free row lock and read the committed counter; the lock holder then either
commits its increment (within the limit) or rolls it back (over the limit),
releasing the lock. -/
inductive ConcStep (L : Nat) : ConcState → ConcState → Prop where
  | acquire (l₁ l₂ : List (Nat × CallPhase)) (r cnt : Nat) :
      ConcStep L ⟨l₁ ++ (r, .ready) :: l₂, cnt, false⟩
                 ⟨l₁ ++ (r, .inCrit cnt) :: l₂, cnt, true⟩
  | commitStep (l₁ l₂ : List (Nat × CallPhase)) (r old cnt : Nat) :
      old + r ≤ L →
      ConcStep L ⟨l₁ ++ (r, .inCrit old) :: l₂, cnt, true⟩
                 ⟨l₁ ++ (r, .finished true) :: l₂, old + r, false⟩
  | rollbackStep (l₁ l₂ : List (Nat × CallPhase)) (r old cnt : Nat) :
      old + r > L →
      ConcStep L ⟨l₁ ++ (r, .inCrit old) :: l₂, cnt, true⟩
                 ⟨l₁ ++ (r, .finished false) :: l₂, cnt, false⟩

/-- Initial state: all calls ready, counter 0 (fresh day), lock free. -/
def initState (reqs : List Nat) : ConcState :=
  ⟨reqs.map (fun r => (r, .ready)), 0, false⟩

/-- Reachability under any interleaving. -/
def Reachable (L : Nat) : ConcState → ConcState → Prop :=
  Relation.ReflTransGen (ConcStep L)

/-- Inductive invariant: the committed counter equals the total granted so
far and never exceeds the limit; the lock guards the critical section; any
call inside the critical section read the current committed counter. -/
def ConcInv (L : Nat) (s : ConcState) : Prop :=
  s.counter = allowedSum s.calls ∧
  s.counter ≤ L ∧
  (s.lockHeld = false → critCount s.calls = 0) ∧
  (∀ r old, (r, CallPhase.inCrit old) ∈ s.calls → s.lockHeld = true ∧ old = s.counter) ∧
  critCount s.calls ≤ 1

lemma allowedSum_append (a b : List (Nat × CallPhase)) :
    allowedSum (a ++ b) = allowedSum a + allowedSum b := by
  simp [allowedSum]

lemma critCount_append (a b : List (Nat × CallPhase)) :
    critCount (a ++ b) = critCount a + critCount b := by
  simp [critCount, List.countP_append]

lemma critCount_zero_no_mem {l : List (Nat × CallPhase)} (h : critCount l = 0)
    {r old : Nat} (hmem : (r, CallPhase.inCrit old) ∈ l) : False := by
  have := List.countP_eq_zero.mp h _ hmem
  simp [isCrit] at this

lemma concInv_step {L : Nat} {s t : ConcState} (h : ConcStep L s t)
    (inv : ConcInv L s) : ConcInv L t := by
  obtain ⟨hsum, hle, hfree, hcrit, hone⟩ := inv
  cases h with
  | acquire l₁ l₂ r cnt =>
      dsimp only at hsum hle hfree hcrit hone
      have hzero : critCount (l₁ ++ (r, CallPhase.ready) :: l₂) = 0 := hfree rfl
      have happ := critCount_append l₁ ((r, CallPhase.ready) :: l₂)
      have hcons : critCount ((r, CallPhase.ready) :: l₂) = critCount l₂ := by
        simp [critCount, List.countP_cons, isCrit]
      have hz₁ : critCount l₁ = 0 := by omega
      have hz₂ : critCount l₂ = 0 := by omega
      refine ⟨?_, hle, ?_, ?_, ?_⟩
      · dsimp only
        have h₁ := allowedSum_append l₁ ((r, CallPhase.ready) :: l₂)
        have h₂ := allowedSum_append l₁ ((r, CallPhase.inCrit cnt) :: l₂)
        have e₁ : allowedSum ((r, CallPhase.ready) :: l₂) = allowedSum l₂ := by
          simp [allowedSum, allowedContrib]
        have e₂ : allowedSum ((r, CallPhase.inCrit cnt) :: l₂) = allowedSum l₂ := by
          simp [allowedSum, allowedContrib]
        omega
      · intro hfalse
        exact absurd hfalse (by simp)
      · intro r₂ old₂ hmem
        dsimp only at hmem ⊢
        refine ⟨rfl, ?_⟩
        rcases List.mem_append.mp hmem with hm | hm
        · exact absurd hm (fun hm => critCount_zero_no_mem hz₁ hm)
        · rcases List.mem_cons.mp hm with hm | hm
          · cases hm
            rfl
          · exact absurd hm (fun hm => critCount_zero_no_mem hz₂ hm)
      · dsimp only
        have happ2 := critCount_append l₁ ((r, CallPhase.inCrit cnt) :: l₂)
        have hcons2 : critCount ((r, CallPhase.inCrit cnt) :: l₂) = critCount l₂ + 1 := by
          simp [critCount, List.countP_cons, isCrit]
        omega
  | commitStep l₁ l₂ r old cnt hok =>
      dsimp only at hsum hle hfree hcrit hone
      have hmid : (r, CallPhase.inCrit old) ∈ l₁ ++ (r, CallPhase.inCrit old) :: l₂ :=
        List.mem_append.mpr (Or.inr (List.mem_cons_self _ _))
      have hold : old = cnt := (hcrit r old hmid).2
      have hsplit := critCount_append l₁ ((r, CallPhase.inCrit old) :: l₂)
      have hcons : critCount ((r, CallPhase.inCrit old) :: l₂) = critCount l₂ + 1 := by
        simp [critCount, List.countP_cons, isCrit]
      have hz₁ : critCount l₁ = 0 := by omega
      have hz₂ : critCount l₂ = 0 := by omega
      have hfin : critCount ((r, CallPhase.finished true) :: l₂) = critCount l₂ := by
        simp [critCount, List.countP_cons, isCrit]
      have hfapp := critCount_append l₁ ((r, CallPhase.finished true) :: l₂)
      refine ⟨?_, hok, ?_, ?_, ?_⟩
      · dsimp only
        have h₁ := allowedSum_append l₁ ((r, CallPhase.inCrit old) :: l₂)
        have h₂ := allowedSum_append l₁ ((r, CallPhase.finished true) :: l₂)
        have e₁ : allowedSum ((r, CallPhase.inCrit old) :: l₂) = allowedSum l₂ := by
          simp [allowedSum, allowedContrib]
        have e₂ : allowedSum ((r, CallPhase.finished true) :: l₂) = r + allowedSum l₂ := by
          simp [allowedSum, allowedContrib]
        omega
      · intro _
        dsimp only
        omega
      · intro r₂ old₂ hmem
        dsimp only at hmem
        exfalso
        rcases List.mem_append.mp hmem with hm | hm
        · exact critCount_zero_no_mem hz₁ hm
        · rcases List.mem_cons.mp hm with hm | hm
          · cases hm
          · exact critCount_zero_no_mem hz₂ hm
      · dsimp only
        omega
  | rollbackStep l₁ l₂ r old cnt hover =>
      dsimp only at hsum hle hfree hcrit hone
      have hsplit := critCount_append l₁ ((r, CallPhase.inCrit old) :: l₂)
      have hcons : critCount ((r, CallPhase.inCrit old) :: l₂) = critCount l₂ + 1 := by
        simp [critCount, List.countP_cons, isCrit]
      have hz₁ : critCount l₁ = 0 := by omega
      have hz₂ : critCount l₂ = 0 := by omega
      have hfin : critCount ((r, CallPhase.finished false) :: l₂) = critCount l₂ := by
        simp [critCount, List.countP_cons, isCrit]
      have hfapp := critCount_append l₁ ((r, CallPhase.finished false) :: l₂)
      refine ⟨?_, hle, ?_, ?_, ?_⟩
      · dsimp only
        have h₁ := allowedSum_append l₁ ((r, CallPhase.inCrit old) :: l₂)
        have h₂ := allowedSum_append l₁ ((r, CallPhase.finished false) :: l₂)
        have e₁ : allowedSum ((r, CallPhase.inCrit old) :: l₂) = allowedSum l₂ := by
          simp [allowedSum, allowedContrib]
        have e₂ : allowedSum ((r, CallPhase.finished false) :: l₂) = allowedSum l₂ := by
          simp [allowedSum, allowedContrib]
        omega
      · intro _
        dsimp only
        omega
      · intro r₂ old₂ hmem
        dsimp only at hmem
        exfalso
        rcases List.mem_append.mp hmem with hm | hm
        · exact critCount_zero_no_mem hz₁ hm
        · rcases List.mem_cons.mp hm with hm | hm
          · cases hm
          · exact critCount_zero_no_mem hz₂ hm
      · dsimp only
        omega

lemma allowedSum_ready (reqs : List Nat) :
    allowedSum (reqs.map (fun r => (r, CallPhase.ready))) = 0 := by
  induction reqs with
  | nil => simp [allowedSum]
  | cons r t ih =>
      simp only [List.map_cons, allowedSum, List.sum_cons] at *
      simpa [allowedContrib, Function.comp] using ih

lemma critCount_ready (reqs : List Nat) :
    critCount (reqs.map (fun r => (r, CallPhase.ready))) = 0 := by
  induction reqs with
  | nil => simp [critCount]
  | cons r t ih =>
      simp only [List.map_cons, critCount, List.countP_cons] at *
      simp [isCrit, ih]

lemma concInv_init (L : Nat) (reqs : List Nat) : ConcInv L (initState reqs) := by
  refine ⟨?_, Nat.zero_le L, ?_, ?_, ?_⟩
  · exact (allowedSum_ready reqs).symm
  · intro _
    exact critCount_ready reqs
  · intro r old hmem
    exfalso
    simp only [initState] at hmem
    rcases List.mem_map.mp hmem with ⟨a, _, ha⟩
    cases ha
  · have := critCount_ready reqs
    simp only [initState]
    omega

lemma concInv_reachable {L : Nat} {s t : ConcState}
    (h : Reachable L s t) (inv : ConcInv L s) : ConcInv L t := by
  induction h with
  | refl => exact inv
  | tail _ hstep ih => exact concInv_step hstep ih

/-!
Helper lemmas shared by the claim theorems.
-/

lemma get_usage_state (default_daily_limit : Nat) (key : APIKeyRecord)
    (db : GatewayDb) (now_us : Nat) :
    (get_usage default_daily_limit key db now_us).2 =
      ⟨some (db.counter.getD 0), db.sendLogs⟩ := by
  rcases db with ⟨_ | c, logs⟩ <;>
    simp only [get_usage, check_and_increment_rate_limit] <;>
    (try split) <;> simp

lemma peek_n_state (default_daily_limit : Nat) (key : APIKeyRecord)
    (now_us n : Nat) (db : GatewayDb) :
    (peek_n default_daily_limit key now_us n db).counter.getD 0 = db.counter.getD 0 ∧
    (peek_n default_daily_limit key now_us n db).sendLogs = db.sendLogs := by
  induction n generalizing db with
  | zero => exact ⟨rfl, rfl⟩
  | succ n ih =>
      have hstep := get_usage_state default_daily_limit key db now_us
      simp only [peek_n, hstep]
      have := ih ⟨some (db.counter.getD 0), db.sendLogs⟩
      simpa using this

/-!
Claim theorems.
-/

/-- C1: for one (key, day) counter under effective limit L, any interleaving
of concurrent check_and_increment calls — each entering the row-locked
critical section only while the lock is free, and committing or rolling back
its increment on exit — grants a set of calls whose requested counts sum to
at most L, and the stored counter never exceeds L, even when the total
requested sum exceeds L. -/
theorem serialization_no_overrun (L : Nat) (reqs : List Nat)
    (hsumOver : L < reqs.sum) (s : ConcState)
    (hreach : Reachable L (initState reqs) s) :
    allowedSum s.calls ≤ L ∧ s.counter ≤ L := by
  have hinv := concInv_reachable hreach (concInv_init L reqs)
  obtain ⟨hsum, hle, -, -, -⟩ := hinv
  have hanySum : 0 < reqs.sum := Nat.lt_of_le_of_lt (Nat.zero_le L) hsumOver
  clear hanySum
  exact ⟨by omega, hle⟩

/-- C1 witness: limit 1, two concurrent calls each requesting 1; in the
interleaving where the first commits and the second rolls back, the granted
sum and the final counter are both at most 1. -/
theorem serialization_no_overrun_witness :
    allowedSum [((1 : Nat), CallPhase.finished true), ((1 : Nat), CallPhase.finished false)] ≤ 1 ∧
    (1 : Nat) ≤ 1 := by
  have step1 : ConcStep 1 (initState [1, 1])
      ⟨[(1, CallPhase.inCrit 0), (1, CallPhase.ready)], 0, true⟩ :=
    @ConcStep.acquire 1 [] [(1, CallPhase.ready)] 1 0
  have step2 : ConcStep 1 ⟨[(1, CallPhase.inCrit 0), (1, CallPhase.ready)], 0, true⟩
      ⟨[(1, CallPhase.finished true), (1, CallPhase.ready)], 1, false⟩ :=
    @ConcStep.commitStep 1 [] [(1, CallPhase.ready)] 1 0 0 (by decide)
  have step3 : ConcStep 1 ⟨[(1, CallPhase.finished true), (1, CallPhase.ready)], 1, false⟩
      ⟨[(1, CallPhase.finished true), (1, CallPhase.inCrit 1)], 1, true⟩ :=
    @ConcStep.acquire 1 [(1, CallPhase.finished true)] [] 1 1
  have step4 : ConcStep 1 ⟨[(1, CallPhase.finished true), (1, CallPhase.inCrit 1)], 1, true⟩
      ⟨[(1, CallPhase.finished true), (1, CallPhase.finished false)], 1, false⟩ :=
    @ConcStep.rollbackStep 1 [(1, CallPhase.finished true)] [] 1 1 1 (by decide)
  exact serialization_no_overrun 1 [1, 1] (by decide)
    ⟨[(1, CallPhase.finished true), (1, CallPhase.finished false)], 1, false⟩
    (Relation.ReflTransGen.head step1 (Relation.ReflTransGen.head step2
      (Relation.ReflTransGen.head step3 (Relation.ReflTransGen.head step4
        Relation.ReflTransGen.refl))))

/-- C2: an anomaly-free check_and_increment with the request-scoped session
finalization computes newCount = oldCount + requestedCount with oldCount 0
when the row is absent; within the limit it returns allowed with
currentCount = newCount and the stored count becomes newCount (the row being
created if it was absent); over the limit it returns denied with
currentCount = oldCount and a retry-after, and the stored row is exactly
what it was before the call. -/
theorem checkAndIncrement_effect (effective_limit : Nat) (db : Option Nat)
    (email_count now_us : Nat) :
    check_and_increment_committed effective_limit db email_count now_us =
      if db.getD 0 + email_count ≤ effective_limit then
        (⟨true, db.getD 0 + email_count, none⟩, some (db.getD 0 + email_count))
      else
        (⟨false, db.getD 0, some (calculate_retry_after_seconds now_us)⟩, db) := by
  rcases db with _ | c
  · by_cases h : email_count ≤ effective_limit
    · have h2 : ¬ effective_limit < email_count := Nat.not_lt.mpr h
      simp [check_and_increment_committed, check_and_increment_rate_limit, h, h2]
    · have h2 : effective_limit < email_count := Nat.not_le.mp h
      simp [check_and_increment_committed, check_and_increment_rate_limit, h, h2]
  · by_cases h : c + email_count ≤ effective_limit
    · have h2 : ¬ effective_limit < c + email_count := Nat.not_lt.mpr h
      simp [check_and_increment_committed, check_and_increment_rate_limit, h, h2]
    · have h2 : effective_limit < c + email_count := Nat.not_le.mp h
      simp [check_and_increment_committed, check_and_increment_rate_limit, h, h2]

/-- C3 claim predicate (from the spec wording): the counter increment became
durable strictly before the SendLog row was created. -/
def IncrementCommittedStrictlyFirst (evs : List MailEv) : Prop :=
  ∃ i j, first_index evs MailEv.txCommitted = some i ∧
    first_index evs MailEv.sendLogFlushed = some j ∧ i < j

/-- C3 counterexample: on a concrete accepted send (fresh key, default limit
15, one recipient), the SendLog row is created (flushed) at trace index 1
while the increment only becomes durable at the single commit at index 2 —
the increment is not committed strictly before the record is created, and
both become durable in the same commit rather than increment-first. -/
theorem audit_ordering_counterexample :
    ¬ IncrementCommittedStrictlyFirst
      (send_mail 15 ⟨none, none⟩ "user@example.com" ⟨none, 0⟩ 0 Anomaly.ok).events := by
  intro h
  obtain ⟨i, j, hi, hj, hij⟩ := h
  have he : (send_mail 15 ⟨none, none⟩ "user@example.com" ⟨none, 0⟩ 0 Anomaly.ok).events =
      [MailEv.rateCheckPassed, MailEv.sendLogFlushed, MailEv.txCommitted] := by decide
  rw [he] at hi hj
  have h2 : first_index
      [MailEv.rateCheckPassed, MailEv.sendLogFlushed, MailEv.txCommitted]
      MailEv.txCommitted = some 2 := by decide
  have h1 : first_index
      [MailEv.rateCheckPassed, MailEv.sendLogFlushed, MailEv.txCommitted]
      MailEv.sendLogFlushed = some 1 := by decide
  rw [h2] at hi
  rw [h1] at hj
  have hi2 : i = 2 := by injection hi with hi; omega
  have hj1 : j = 1 := by injection hj with hj; omega
  omega

/-- C3 (amended): a denied or forbidden request creates no SendLog row; an
accepted request creates exactly one SendLog row, created after the rate
check passed, and the increment and the row become durable together in the
single commit, so no committed state contains the new SendLog row without
the counter row holding the incremented count. -/
theorem audit_atomic_with_increment (default_daily_limit : Nat) (key : APIKeyRecord)
    (recipient : String) (db : GatewayDb) (now_us : Nat) (anom : Anomaly) :
    ((send_mail default_daily_limit key recipient db now_us anom).outcome =
        SendOutcome.forbidden →
      (send_mail default_daily_limit key recipient db now_us anom).db = db) ∧
    (∀ cc ra, (send_mail default_daily_limit key recipient db now_us anom).outcome =
        SendOutcome.rateLimited cc ra →
      (send_mail default_daily_limit key recipient db now_us anom).db.sendLogs = db.sendLogs ∧
      (send_mail default_daily_limit key recipient db now_us anom).events = []) ∧
    (∀ rem, (send_mail default_daily_limit key recipient db now_us anom).outcome =
        SendOutcome.queued rem →
      (send_mail default_daily_limit key recipient db now_us anom).db.sendLogs =
        db.sendLogs + 1 ∧
      (send_mail default_daily_limit key recipient db now_us anom).events =
        [MailEv.rateCheckPassed, MailEv.sendLogFlushed, MailEv.txCommitted] ∧
      ∃ c, (send_mail default_daily_limit key recipient db now_us anom).db.counter =
        some c ∧ 1 ≤ c) := by
  by_cases hallow : recipient_allowed key recipient
  · rcases db with ⟨dbc, logs⟩
    rcases dbc with _ | c <;> rcases anom with _ | r | _ | _ | _ <;>
      simp only [send_mail, hallow, not_true, if_false, ite_false, ite_true,
        check_and_increment_rate_limit] <;>
      split <;>
      simp_all
  · simp [send_mail, hallow]

/-- C3 witness: a concrete accepted send on a fresh key creates exactly one
SendLog row, committed together with the increment. -/
theorem audit_atomic_with_increment_witness :
    (send_mail 15 ⟨none, none⟩ "user@example.com" ⟨none, 0⟩ 0 Anomaly.ok).db.sendLogs =
      (⟨none, 0⟩ : GatewayDb).sendLogs + 1 ∧
    (send_mail 15 ⟨none, none⟩ "user@example.com" ⟨none, 0⟩ 0 Anomaly.ok).events =
      [MailEv.rateCheckPassed, MailEv.sendLogFlushed, MailEv.txCommitted] ∧
    ∃ c, (send_mail 15 ⟨none, none⟩ "user@example.com" ⟨none, 0⟩ 0 Anomaly.ok).db.counter =
      some c ∧ 1 ≤ c :=
  (audit_atomic_with_increment 15 ⟨none, none⟩ "user@example.com" ⟨none, 0⟩ 0
    Anomaly.ok).2.2 13 rfl

/-- C4: the limiter fails closed.  A uniqueness-constraint collision on the
row insert is retried exactly once by re-reading the now-existing row and
applying the increment to it (allowed exactly when the combined count fits);
a missing row on the retry, a failure of the retry itself, and any
unexpected error all yield allowed=false with the computed retry-after; and
every allowed=true result carries no retry-after and arises only on the
normal path or the single transparent insert-race retry. -/
theorem limiter_fails_closed (effective_limit : Nat) (db : Option Nat)
    (email_count now_us : Nat) :
    (∀ r, check_and_increment_rate_limit effective_limit none email_count now_us
        (Anomaly.insertRace r) =
      if r + email_count > effective_limit then
        ⟨⟨false, r, some (calculate_retry_after_seconds now_us)⟩, some r,
          some (r + email_count)⟩
      else
        ⟨⟨true, r + email_count, none⟩, some r, some (r + email_count)⟩) ∧
    ((check_and_increment_rate_limit effective_limit none email_count now_us
        Anomaly.insertRaceRowMissing).result =
      ⟨false, 0, some (calculate_retry_after_seconds now_us)⟩) ∧
    ((check_and_increment_rate_limit effective_limit none email_count now_us
        Anomaly.insertRaceThenUnexpected).result =
      ⟨false, 0, some (calculate_retry_after_seconds now_us)⟩) ∧
    ((check_and_increment_rate_limit effective_limit db email_count now_us
        Anomaly.unexpected).result =
      ⟨false, 0, some (calculate_retry_after_seconds now_us)⟩) ∧
    (∀ anom, (check_and_increment_rate_limit effective_limit db email_count now_us
        anom).result.allowed = true →
      (check_and_increment_rate_limit effective_limit db email_count now_us
        anom).result.retry_after_seconds = none ∧
      (anom = Anomaly.ok ∨ (∃ r, anom = Anomaly.insertRace r) ∨ ∃ c, db = some c)) := by
  refine ⟨?_, ?_, ?_, ?_, ?_⟩
  · intro r
    rfl
  · rfl
  · rfl
  · cases db <;> rfl
  · intro anom hallow
    rcases db with _ | c <;> rcases anom with _ | r | _ | _ | _ <;>
      simp only [check_and_increment_rate_limit] at hallow ⊢ <;>
      (try split at hallow) <;> (try split) <;> simp_all

/-- C4 witness: with limit 15, an insert race against a racer already at 15
is denied on the retry with the computed retry-after; a retry that finds no
row is denied; and a normal in-limit call is allowed with no retry-after. -/
theorem limiter_fails_closed_witness :
    check_and_increment_rate_limit 15 none 1 500000 (Anomaly.insertRace 15) =
      ⟨⟨false, 15, some (calculate_retry_after_seconds 500000)⟩, some 15, some 16⟩ ∧
    (check_and_increment_rate_limit 15 none 1 500000 Anomaly.insertRaceRowMissing).result =
      ⟨false, 0, some (calculate_retry_after_seconds 500000)⟩ ∧
    (check_and_increment_rate_limit 15 (some 0) 1 500000 Anomaly.ok).result.retry_after_seconds =
      none := by
  refine ⟨?_, ?_, ?_⟩
  · have h := (limiter_fails_closed 15 none 1 500000).1 15
    simpa using h
  · exact (limiter_fails_closed 15 none 1 500000).2.1
  · exact ((limiter_fails_closed 15 (some 0) 1 500000).2.2.2.2 Anomaly.ok rfl).1

/-- C5: a peek (get_usage, requestedCount 0) reports currentCount equal to
the stored count (0 when no row exists), runs the full limit comparison
(allowed exactly when the stored count is within the effective limit, so an
over-quota key peeks as denied and a fresh key peeks as currentCount 0,
allowed), and any number of sequential peeks leaves the observable stored
count — and the audit trail — unchanged. -/
theorem peek_idempotent_full_check (default_daily_limit : Nat) (key : APIKeyRecord)
    (db : GatewayDb) (now_us n : Nat) :
    (get_usage default_daily_limit key db now_us).1.current_count = db.counter.getD 0 ∧
    (get_usage default_daily_limit key db now_us).1.allowed =
      decide (db.counter.getD 0 ≤
        get_effective_daily_limit key.daily_limit default_daily_limit) ∧
    (get_usage default_daily_limit key db now_us).2.counter.getD 0 = db.counter.getD 0 ∧
    (peek_n default_daily_limit key now_us n db).counter.getD 0 = db.counter.getD 0 ∧
    (peek_n default_daily_limit key now_us n db).sendLogs = db.sendLogs := by
  refine ⟨?_, ?_, ?_, (peek_n_state default_daily_limit key now_us n db).1,
    (peek_n_state default_daily_limit key now_us n db).2⟩
  · rcases db with ⟨_ | c, logs⟩
    · simp [get_usage, check_and_increment_rate_limit]
    · simp only [get_usage, check_and_increment_rate_limit]
      split <;> simp_all
  · rcases db with ⟨_ | c, logs⟩
    · simp [get_usage, check_and_increment_rate_limit]
    · simp only [get_usage, check_and_increment_rate_limit]
      split <;> rename_i h <;> simp_all
  · simp [get_usage_state]

/-- C6: the effective daily limit is the key quota override exactly when it
is present and strictly positive, and the system default otherwise — a zero
or negative override behaves exactly like an absent one. -/
theorem effective_limit_override (d : Int) (default_daily_limit : Nat) :
    (d ≤ 0 → get_effective_daily_limit (some d) default_daily_limit =
      get_effective_daily_limit none default_daily_limit) ∧
    (0 < d → (get_effective_daily_limit (some d) default_daily_limit : Int) = d) ∧
    get_effective_daily_limit none default_daily_limit = default_daily_limit := by
  refine ⟨?_, ?_, rfl⟩
  · intro h
    simp [get_effective_daily_limit, h]
  · intro h
    simp only [get_effective_daily_limit, if_neg (by omega : ¬ d ≤ 0)]
    exact Int.toNat_of_nonneg (le_of_lt h)

/-- C6 witness: override 0 falls back to the default 15; override 500 is
used as-is. -/
theorem effective_limit_override_witness :
    get_effective_daily_limit (some 0) 15 = get_effective_daily_limit none 15 ∧
    (get_effective_daily_limit (some 500) 15 : Int) = 500 :=
  ⟨(effective_limit_override 0 15).1 (by decide),
    (effective_limit_override 500 15).2.1 (by decide)⟩

/-- C7: evaluation of send_mail at the failing input.  Fresh key, default
limit 15, first single-email send: the limiter grants it with
currentCount 1, so the spec requires remaining = 15 - 1 = 14, but the code
computes remaining = effective_limit - (current_count + email_count) with
current_count already equal to the new count, and responds queued with
remaining 13. -/
theorem send_mail_remaining_off_by_one :
    (send_mail 15 ⟨none, none⟩ "user@example.com" ⟨none, 0⟩ 0 Anomaly.ok).outcome =
      SendOutcome.queued 13 ∧
    (send_mail 15 ⟨none, none⟩ "user@example.com" ⟨none, 0⟩ 0 Anomaly.ok).db.counter =
      some 1 ∧
    (13 : Int) ≠ 15 - 1 := by
  refine ⟨by decide, by decide, by decide⟩

/-- C8 counterexample: at half a second past a UTC midnight, a denied call
returns retryAfterSeconds 86399 (the floor), while the ceiling of the
seconds until the next UTC midnight is 86400 — the value is rounded down,
not up. -/
theorem retry_after_ceil_counterexample :
    (check_and_increment_rate_limit 15 (some 15) 1 500000 Anomaly.ok).result.retry_after_seconds =
      some 86399 ∧
    spec_retry_after_ceil 500000 = 86400 ∧ (86399 : Nat) ≠ 86400 := by
  refine ⟨by decide, by decide, by decide⟩

/-- C8 (amended): whenever a check is denied, for any reason (over-limit on
the normal path or the retry, a missing row after the race, a failed retry,
or an unexpected error), the returned retryAfterSeconds is the floor
(truncation) of the seconds from now until the next UTC midnight — the same
value on every denial path, independent of the denial reason. -/
theorem retry_after_floor_on_denial (effective_limit : Nat) (db : Option Nat)
    (email_count now_us : Nat) (anom : Anomaly)
    (h : (check_and_increment_rate_limit effective_limit db email_count now_us
      anom).result.allowed = false) :
    (check_and_increment_rate_limit effective_limit db email_count now_us
      anom).result.retry_after_seconds =
      some ((next_midnight_us now_us - now_us) / usPerSecond) := by
  rcases db with _ | c <;> rcases anom with _ | r | _ | _ | _ <;>
    simp only [check_and_increment_rate_limit, calculate_retry_after_seconds] at h ⊢ <;>
    first
      | rfl
      | (split at h <;> simp_all [calculate_retry_after_seconds])

/-- C8 witness: a concrete over-limit denial at half a second past midnight
carries the floor value 86399. -/
theorem retry_after_floor_on_denial_witness :
    (check_and_increment_rate_limit 15 (some 15) 1 500000 Anomaly.ok).result.retry_after_seconds =
      some ((next_midnight_us 500000 - 500000) / usPerSecond) :=
  retry_after_floor_on_denial 15 (some 15) 1 500000 Anomaly.ok rfl

/-- C9: for every delivery outcome, the background handler updates the
SendLog row exactly once — with the transport identifier on success, and
explicitly with null when the mailer reported failure or raised — and the
quota counter is untouched, so a failed delivery still consumes the quota
reserved at accept time. -/
theorem background_update_exactly_once (outcome : DeliveryOutcome) (st : BackgroundState) :
    (send_email_background outcome st).row.updates = st.row.updates + 1 ∧
    (send_email_background outcome st).row.message_id =
      (match outcome with
        | DeliveryOutcome.success mid => some mid
        | DeliveryOutcome.returnedNone => none
        | DeliveryOutcome.raised => none) ∧
    (send_email_background outcome st).counter = st.counter := by
  cases outcome <;>
    simp [send_email_background, background_update_calls, update_send_log_message_id]

/-- C10: when an unexpected internal error escapes the check (the
deny-by-default path beyond the single permitted insert-race retry), the
result is allowed=false with current_count = 0 regardless of the stored
count for the key and day — an over-quota key whose check errors internally
is reported as having zero usage today — together with the computed
retry-after. -/
theorem unexpected_error_reports_zero (effective_limit : Nat) (db : Option Nat)
    (email_count now_us : Nat) :
    (check_and_increment_rate_limit effective_limit db email_count now_us
      Anomaly.unexpected).result =
      ⟨false, 0, some (calculate_retry_after_seconds now_us)⟩ ∧
    (check_and_increment_rate_limit effective_limit db email_count now_us
      Anomaly.unexpected).sessionCounter = db := by
  cases db <;> exact ⟨rfl, rfl⟩

end MailGateway
